import Mathlib

/-
Verification of the Presidio config generator
(src/docker/presidio/generate-configs.py) against its specification.

The script is embedded shallowly:
* YAML scalar/sequence values that can appear as a `phone_context` payload
  are the inductive `YamlVal`; presence/absence of the optional dict key is
  an `Option`.
* The registry file is `Registry`; its `languages` dict is an association
  list preserving YAML mapping order (Python dicts preserve insertion order).
* Each `generate_*` function of the script becomes a Lean function of the
  same name.  Functions that index `registry["languages"][lang]` (a KeyError
  on a missing key) return `Option`, `none` standing for the KeyError path.
* The `main` driver becomes `run`: a pure function from the CLI `--languages`
  string, the `--registry` path string and the state of the registry file
  (`RegistrySource`) to an observable outcome `RunResult` (exit status,
  stderr lines, stdout lines, whether the output directory got created, and
  the files written with their contents).  An uncaught Python exception
  (`yaml` parse error) makes the interpreter print a traceback to stderr and
  exit with status 1; `run` models that outcome directly.
-/

namespace GenerateConfigs

/-- YAML values that can sit under a language entry's optional
`phone_context` key: null, scalars, or a sequence of strings (the shape the
registry documents for phone contexts). -/
inductive YamlVal where
  | null : YamlVal
  | bool (b : Bool) : YamlVal
  | int (n : Int) : YamlVal
  | str (s : String) : YamlVal
  | strs (xs : List String) : YamlVal
deriving DecidableEq

/-- One value of the registry's `languages` mapping: the dict
`{model: ..., phone_context?: ...}`.  `phone_context = none` models the key
being absent from the dict; `some v` models the key present with value `v`
(so `some YamlVal.null` is the key present with a null value). -/
structure LangEntry where
  model : String
  phone_context : Option YamlVal := none
deriving DecidableEq

/-- The parsed registry file: top-level `spacy_version` scalar and the
`languages` mapping, kept as an association list in document order. -/
structure Registry where
  spacy_version : String
  languages : List (String × LangEntry)
deriving DecidableEq

/-- The keys of `registry["languages"]` in document order. -/
def registryKeys (registry : Registry) : List String :=
  registry.languages.map Prod.fst

/-- Dict access `registry["languages"][lang]`, `none` on a missing key. -/
def lookupLang (registry : Registry) (lang : String) : Option LangEntry :=
  registry.languages.lookup lang

/-! Character-level string utilities.  The Python code uses `str.split(",")`,
`str.strip()` and `sorted(...)` on strings; they are embedded here as
structurally recursive functions over `String.data` so that they evaluate
inside the kernel. -/

/-- Three-way lexicographic comparison of character lists by code point,
the order Python's `sorted` uses on `str`. -/
def cmpChars : List Char → List Char → Ordering
  | [], [] => .eq
  | [], _ :: _ => .lt
  | _ :: _, [] => .gt
  | a :: as, b :: bs =>
    if a.toNat < b.toNat then .lt
    else if b.toNat < a.toNat then .gt
    else cmpChars as bs

/-- Python's `<=` on strings (code-point lexicographic order). -/
def strLe (s t : String) : Prop := cmpChars t.data s.data ≠ .lt

instance : DecidableRel strLe := fun s t =>
  inferInstanceAs (Decidable (cmpChars t.data s.data ≠ .lt))

/-- Python's `sorted` on a list of strings. -/
def sortStrings (xs : List String) : List String :=
  List.insertionSort strLe xs

/-- The comma splitter behind `args.languages.split(",")`: accumulate the
current field, emit it at each comma or at the end. -/
def splitCommaAux : List Char → List Char → List (List Char)
  | [], acc => [acc.reverse]
  | c :: cs, acc =>
    if c = ',' then acc.reverse :: splitCommaAux cs [] else splitCommaAux cs (c :: acc)

/-- Python's `s.split(",")`. -/
def splitComma (s : String) : List String :=
  (splitCommaAux s.data []).map String.mk

/-- Python's `s.strip()`: drop whitespace from both ends. -/
def stripChars (cs : List Char) : List Char :=
  ((cs.dropWhile Char.isWhitespace).reverse.dropWhile Char.isWhitespace).reverse

/-- Python's `s.strip()` on a `String`. -/
def strip (s : String) : String := String.mk (stripChars s.data)

/-- The main driver's language parsing:
`[lang.strip() for lang in args.languages.split(",") if lang.strip()]`. -/
def parseLanguages (arg : String) : List String :=
  ((splitComma arg).map strip).filter (fun s => decide (s ≠ ""))

/-! The language validator. -/

/-- The loop of `validate_languages`: split the requested codes into the
`valid` and `invalid` lists, preserving relative order, by membership in the
available codes. -/
def partitionLangs (available : List String) : List String → List String × List String
  | [] => ([], [])
  | lang :: rest =>
    let r := partitionLangs available rest
    if lang ∈ available then (lang :: r.1, r.2) else (r.1, lang :: r.2)

/-- The first stderr line of the validator:
`Error: Unknown language(s): <invalid codes joined by comma-space>`. -/
def unknownMsg (invalid : List String) : String :=
  "Error: Unknown language(s): " ++ String.intercalate (", ") invalid

/-- The second stderr line of the validator:
`Available: <sorted set of registry codes joined by comma-space>`.
Python's `sorted(available)` on the key set is embedded as sorting the
deduplicated key list. -/
def availableMsg (registry : Registry) : String :=
  "Available: " ++ String.intercalate (", ") (sortStrings (registryKeys registry).dedup)

/-- The validator `validate_languages`: on success the `valid` list, on
failure the `invalid` list (the caller `run` turns it into the two stderr
lines and the exit). -/
def validate_languages (languages : List String) (registry : Registry) :
    Except (List String) (List String) :=
  let pair := partitionLangs (registryKeys registry) languages
  if pair.2.isEmpty then .ok pair.1 else .error pair.2

/-! The NLP config projector. -/

/-- One element of the `models` list of nlp-config.yaml. -/
structure NlpModelEntry where
  lang_code : String
  model_name : String
deriving DecidableEq

/-- The `ner_model_configuration` block of nlp-config.yaml.  The float
literal 0.4 of the source is embedded as the rational it denotes. -/
structure NerModelConfiguration where
  model_to_presidio_entity_mapping : List (String × String)
  low_confidence_score_multiplier : Rat
  low_score_entity_names : List String
  labels_to_ignore : List String
deriving DecidableEq

/-- The whole nlp-config.yaml document. -/
structure NlpConfig where
  nlp_engine_name : String
  models : List NlpModelEntry
  ner_model_configuration : NerModelConfiguration
deriving DecidableEq

/-- The constant `ner_model_configuration` block written by
`generate_nlp_config`, verbatim from the source. -/
def nerModelConfigurationFixed : NerModelConfiguration :=
  { model_to_presidio_entity_mapping := [
      ("PER", "PERSON"),
      ("PERSON", "PERSON"),
      ("LOC", "LOCATION"),
      ("GPE", "LOCATION"),
      ("ORG", "ORGANIZATION"),
      ("persName", "PERSON"),
      ("placeName", "LOCATION"),
      ("geogName", "LOCATION"),
      ("orgName", "ORGANIZATION"),
      ("PS", "PERSON"),
      ("LC", "LOCATION"),
      ("OG", "ORGANIZATION"),
      ("PRS", "PERSON"),
      ("GPE_LOC", "LOCATION")],
    low_confidence_score_multiplier := 0.4,
    low_score_entity_names := ["ORG"],
    labels_to_ignore := [
      "O", "CARDINAL", "EVENT", "LANGUAGE", "LAW", "MONEY", "ORDINAL",
      "PERCENT", "PRODUCT", "QUANTITY", "WORK_OF_ART"] }

/-- The loop of `generate_nlp_config` building the `models` list;
`none` models the KeyError on a language missing from the registry. -/
def nlpModels : List String → Registry → Option (List NlpModelEntry)
  | [], _ => some []
  | lang :: rest, registry => do
    let lang_config ← lookupLang registry lang
    let others ← nlpModels rest registry
    pure ({ lang_code := lang, model_name := lang_config.model } :: others)

/-- The function `generate_nlp_config` of the source. -/
def generate_nlp_config (languages : List String) (registry : Registry) :
    Option NlpConfig :=
  (nlpModels languages registry).map fun models =>
    { nlp_engine_name := "spacy",
      models := models,
      ner_model_configuration := nerModelConfigurationFixed }

/-! The analyzer config projector. -/

/-- The analyzer-config.yaml document. -/
structure AnalyzerConfig where
  supported_languages : List String
  default_score_threshold : Int
deriving DecidableEq

/-- The function `generate_analyzer_config` of the source; it takes only the
language list. -/
def generate_analyzer_config (languages : List String) : AnalyzerConfig :=
  { supported_languages := languages, default_score_threshold := 0 }

/-! The recognizers config projector. -/

/-- A per-language element of a recognizer's `supported_languages` list.
`context = none` models the `context` key being absent from the emitted
dict; `some v` models the key present with value `v`. -/
structure RecLangEntry where
  language : String
  context : Option YamlVal := none
deriving DecidableEq

/-- One element of the `recognizers` list of recognizers-config.yaml. -/
structure RecognizerEntry where
  name : String
  supported_languages : List RecLangEntry
  type : String
deriving DecidableEq

/-- The recognizers-config.yaml document. -/
structure RecognizersConfig where
  supported_languages : List String
  global_regex_flags : Int
  recognizers : List RecognizerEntry
deriving DecidableEq

/-- The body of the phone loop of `generate_recognizers_config`: build
`{"language": lang}` and add a `context` key exactly when the registry
entry's dict has a `phone_context` key, copying its value verbatim. -/
def phoneEntry (registry : Registry) (lang : String) : Option RecLangEntry := do
  let lang_config ← lookupLang registry lang
  pure { language := lang, context := lang_config.phone_context }

/-- The phone loop of `generate_recognizers_config` over the whole list. -/
def phoneLangs : List String → Registry → Option (List RecLangEntry)
  | [], _ => some []
  | lang :: rest, registry => do
    let entry ← phoneEntry registry lang
    let others ← phoneLangs rest registry
    pure (entry :: others)

/-- The function `generate_recognizers_config` of the source. -/
def generate_recognizers_config (languages : List String) (registry : Registry) :
    Option RecognizersConfig :=
  let spacy_langs := languages.map (fun lang => ({ language := lang } : RecLangEntry))
  (phoneLangs languages registry).map fun phone_langs =>
    { supported_languages := languages,
      global_regex_flags := 26,
      recognizers := [
        { name := "SpacyRecognizer", supported_languages := spacy_langs, type := "predefined" },
        { name := "EmailRecognizer", supported_languages := spacy_langs, type := "predefined" },
        { name := "PhoneRecognizer", supported_languages := phone_langs, type := "predefined" },
        { name := "CreditCardRecognizer", supported_languages := spacy_langs, type := "predefined" },
        { name := "IbanRecognizer", supported_languages := spacy_langs, type := "predefined" },
        { name := "IpRecognizer", supported_languages := spacy_langs, type := "predefined" }] }

/-! The install script projector. -/

/-- The wheel URL of `generate_install_script`, verbatim from the f-string. -/
def modelUrl (model version : String) : String :=
  "https://github.com/explosion/spacy-models/releases/download/" ++ model ++ "-" ++
    version ++ "/" ++ model ++ "-" ++ version ++ "-py3-none-any.whl"

/-- The informational echo line emitted per language. -/
def installEchoLine (model lang : String) : String :=
  "echo \"Installing " ++ model ++ " for " ++ lang ++ "...\""

/-- The install command line emitted per language. -/
def installCommandLine (url : String) : String :=
  "poetry run pip install --no-cache-dir " ++ url

/-- The final line of the script. -/
def finalEchoLine : String :=
  "echo \"All models installed successfully\""

/-- The loop of `generate_install_script`: per language, append the echo
line, the install line and a blank separator line. -/
def installBlocks : List String → Registry → Option (List String)
  | [], _ => some []
  | lang :: rest, registry => do
    let entry ← lookupLang registry lang
    let others ← installBlocks rest registry
    pure ([installEchoLine entry.model lang,
           installCommandLine (modelUrl entry.model registry.spacy_version),
           ""] ++ others)

/-- The line list built by `generate_install_script`: the shebang, `set -e`,
a blank line (the source initialises `lines` with these three entries), the
per-language blocks, and the final echo. -/
def installLines (languages : List String) (registry : Registry) :
    Option (List String) :=
  (installBlocks languages registry).map fun blocks =>
    ["#!/bin/sh", "set -e", ""] ++ blocks ++ [finalEchoLine]

/-- The function `generate_install_script` of the source:
`"\n".join(lines)`. -/
def generate_install_script (languages : List String) (registry : Registry) :
    Option String :=
  (installLines languages registry).map (String.intercalate ("\n"))

/-- The install-script text as the specification words it: a shebang line,
a `set -e` line, then immediately the per-language three-line blocks, then
the final completion echo.  Stated from the spec sentence, for comparison
with the source embedding `generate_install_script`. -/
def claimedInstallScript (languages : List String) (registry : Registry) :
    Option String :=
  (installBlocks languages registry).map fun blocks =>
    String.intercalate ("\n") (["#!/bin/sh", "set -e"] ++ blocks ++ [finalEchoLine])

/-! The main driver. -/

/-- The state of the registry file when the run starts: the path is missing,
the file exists but is not valid YAML (with the parser's message), or it
parses to a registry. -/
inductive RegistrySource where
  | missing : RegistrySource
  | unparsable (message : String) : RegistrySource
  | parsed (registry : Registry) : RegistrySource
deriving DecidableEq

/-- A file written by the run, with its parsed content. -/
inductive Artifact where
  | nlp (config : NlpConfig) : Artifact
  | analyzer (config : AnalyzerConfig) : Artifact
  | recognizers (config : RecognizersConfig) : Artifact
  | script (text : String) : Artifact
deriving DecidableEq

/-- The observable outcome of one invocation of the tool. -/
structure RunResult where
  exitCode : Nat
  stderrLines : List String
  stdoutLines : List String
  outputDirCreated : Bool
  writtenFiles : List (String × Artifact)
deriving DecidableEq

/-- First line of a CPython uncaught-exception report on stderr. -/
def tracebackHeader : String := "Traceback (most recent call last):"

/-- The `main` function of the source as a pure transition: CLI
`--languages` value and `--registry` path, plus the registry file state, to
the observable outcome.  The stderr messages, the order of checks (empty
list, then registry existence, then parse, then validation, then mkdir,
then the four writes) and the exit statuses mirror the source; an uncaught
parse exception is the CPython behavior (traceback on stderr, exit 1). -/
def run (languagesArg registryPathArg : String) (src : RegistrySource) : RunResult :=
  let languages := parseLanguages languagesArg
  if languages.isEmpty then
    { exitCode := 1,
      stderrLines := ["Error: No languages specified"],
      stdoutLines := [], outputDirCreated := false, writtenFiles := [] }
  else
    match src with
    | .missing =>
      { exitCode := 1,
        stderrLines := ["Error: Registry not found: " ++ registryPathArg],
        stdoutLines := [], outputDirCreated := false, writtenFiles := [] }
    | .unparsable message =>
      { exitCode := 1,
        stderrLines := [tracebackHeader, message],
        stdoutLines := [], outputDirCreated := false, writtenFiles := [] }
    | .parsed registry =>
      match validate_languages languages registry with
      | .error invalid =>
        { exitCode := 1,
          stderrLines := [unknownMsg invalid, availableMsg registry],
          stdoutLines := [], outputDirCreated := false, writtenFiles := [] }
      | .ok langs =>
        match generate_nlp_config langs registry,
              generate_recognizers_config langs registry,
              generate_install_script langs registry with
        | some nlpConfig, some recConfig, some scriptText =>
          { exitCode := 0,
            stderrLines := [],
            stdoutLines := [
              "Generating configs for: " ++ String.intercalate (", ") langs,
              "  - nlp-config.yaml", "  - analyzer-config.yaml",
              "  - recognizers-config.yaml", "  - install-models.sh", "Done!"],
            outputDirCreated := true,
            writtenFiles := [
              ("nlp-config.yaml", .nlp nlpConfig),
              ("analyzer-config.yaml", .analyzer (generate_analyzer_config langs)),
              ("recognizers-config.yaml", .recognizers recConfig),
              ("install-models.sh", .script scriptText)] }
        | _, _, _ =>
          -- Unreachable: validation only returns registry keys, so every
          -- lookup below it succeeds (see nlpModels_eq and phoneLangs_eq).
          { exitCode := 1,
            stderrLines := [tracebackHeader, "KeyError"],
            stdoutLines := [], outputDirCreated := true, writtenFiles := [] }

/-! Specification-side views used in theorem statements. -/

/-- The `model` field of the registry entry of `lang`; only read under the
hypothesis that `lang` is a registry key. -/
def modelOf (registry : Registry) (lang : String) : String :=
  match lookupLang registry lang with
  | some entry => entry.model
  | none => ""

/-- The `phone_context` value of the registry entry of `lang` (`none` when
the key is absent); only read under the hypothesis that `lang` is a
registry key. -/
def ctxOf (registry : Registry) (lang : String) : Option YamlVal :=
  match lookupLang registry lang with
  | some entry => entry.phone_context
  | none => none

/-- A concrete registry, the one of the spec's worked scenario. -/
def sampleRegistry : Registry :=
  { spacy_version := "3.7.0",
    languages := [
      ("en", { model := "en_core_web_lg" }),
      ("de", { model := "de_core_news_lg",
               phone_context := some (.strs ["telefon", "tel"]) })] }

/-- A registry whose entries carry degenerate `phone_context` values: the
key present with a null value, and the key present with an empty list. -/
def degenerateRegistry : Registry :=
  { spacy_version := "3.7.0",
    languages := [
      ("aa", { model := "aa_model", phone_context := some .null }),
      ("bb", { model := "bb_model", phone_context := some (.strs []) })] }

/-! Supporting lemmas. -/

theorem char_eq_of_toNat_eq {a b : Char} (h : a.toNat = b.toNat) : a = b :=
  Char.eq_of_val_eq (UInt32.ext h)

theorem cmpChars_eq_iff : ∀ x y : List Char, cmpChars x y = .eq ↔ x = y := by
  intro x
  induction x with
  | nil => intro y; cases y <;> simp [cmpChars]
  | cons a as ih =>
    intro y
    cases y with
    | nil => simp [cmpChars]
    | cons b bs =>
      by_cases hab : a.toNat < b.toNat
      · simp only [cmpChars, if_pos hab]
        constructor
        · intro h; cases h
        · rintro ⟨⟩; omega
      · by_cases hba : b.toNat < a.toNat
        · simp only [cmpChars, if_neg hab, if_pos hba]
          constructor
          · intro h; cases h
          · rintro ⟨⟩; omega
        · have hEq : a = b := char_eq_of_toNat_eq (by omega)
          subst hEq
          simp only [cmpChars, if_neg hab, if_neg hba, ih bs, List.cons.injEq,
            true_and]

theorem cmpChars_swap : ∀ x y : List Char, cmpChars y x = (cmpChars x y).swap := by
  intro x
  induction x with
  | nil => intro y; cases y <;> simp [cmpChars, Ordering.swap]
  | cons a as ih =>
    intro y
    cases y with
    | nil => simp [cmpChars, Ordering.swap]
    | cons b bs =>
      by_cases hab : a.toNat < b.toNat
      · have hba : ¬ b.toNat < a.toNat := by omega
        simp [cmpChars, hab, hba, Ordering.swap]
      · by_cases hba : b.toNat < a.toNat
        · simp [cmpChars, hab, hba, Ordering.swap]
        · simp [cmpChars, hab, hba, ih bs]

theorem cmpChars_lt_trans :
    ∀ x y z : List Char, cmpChars x y = .lt → cmpChars y z = .lt → cmpChars x z = .lt := by
  intro x
  induction x with
  | nil =>
    intro y z h1 h2
    cases y with
    | nil => cases h1
    | cons b bs =>
      cases z with
      | nil => cases h2
      | cons c cs => simp [cmpChars]
  | cons a as ih =>
    intro y z h1 h2
    cases y with
    | nil => cases h1
    | cons b bs =>
      cases z with
      | nil => cases h2
      | cons c cs =>
        by_cases hab : a.toNat < b.toNat
        · by_cases hbc : b.toNat < c.toNat
          · have hac : a.toNat < c.toNat := by omega
            simp [cmpChars, hac]
          · by_cases hcb : c.toNat < b.toNat
            · simp [cmpChars, hbc, hcb] at h2
            · have hac : a.toNat < c.toNat := by omega
              simp [cmpChars, hac]
        · by_cases hba : b.toNat < a.toNat
          · simp [cmpChars, hab, hba] at h1
          · by_cases hbc : b.toNat < c.toNat
            · have hac : a.toNat < c.toNat := by omega
              simp [cmpChars, hac]
            · by_cases hcb : c.toNat < b.toNat
              · simp [cmpChars, hbc, hcb] at h2
              · have hac : ¬ a.toNat < c.toNat := by omega
                have hca : ¬ c.toNat < a.toNat := by omega
                simp only [cmpChars, if_neg hab, if_neg hba] at h1
                simp only [cmpChars, if_neg hbc, if_neg hcb] at h2
                simp only [cmpChars, if_neg hac, if_neg hca]
                exact ih bs cs h1 h2

theorem strLe_iff (s t : String) : strLe s t ↔ cmpChars s.data t.data ≠ .gt := by
  unfold strLe
  rw [cmpChars_swap s.data t.data]
  cases cmpChars s.data t.data <;> simp [Ordering.swap]

theorem strLe_total : ∀ s t : String, strLe s t ∨ strLe t s := by
  intro s t
  by_cases h : cmpChars t.data s.data = .lt
  · right
    rw [strLe_iff, h]
    simp
  · left; exact h

theorem string_eq_of_data_eq {s t : String} (h : s.data = t.data) : s = t := by
  cases s; cases t; cases h; rfl

theorem strLe_trans : ∀ s t u : String, strLe s t → strLe t u → strLe s u := by
  intro s t u h1 h2
  rw [strLe_iff] at h1 h2 ⊢
  rcases hst : cmpChars s.data t.data with _ | _ | _
  · rcases htu : cmpChars t.data u.data with _ | _ | _
    · intro hg
      have := cmpChars_lt_trans s.data t.data u.data hst htu
      rw [this] at hg; cases hg
    · have : t.data = u.data := (cmpChars_eq_iff t.data u.data).mp htu
      rw [← this, hst]; intro hg; cases hg
    · exact absurd htu h2
  · have : s.data = t.data := (cmpChars_eq_iff s.data t.data).mp hst
    rw [this]; exact h2
  · exact absurd hst h1

instance : IsTotal String strLe := ⟨strLe_total⟩

instance : IsTrans String strLe := ⟨strLe_trans⟩

theorem sortStrings_sorted (xs : List String) : List.Sorted strLe (sortStrings xs) :=
  List.sorted_insertionSort strLe xs

theorem sortStrings_mem (xs : List String) (s : String) :
    s ∈ sortStrings xs ↔ s ∈ xs :=
  (List.perm_insertionSort strLe xs).mem_iff

theorem lookup_isSome_iff (es : List (String × LangEntry)) (lang : String) :
    (es.lookup lang).isSome ↔ lang ∈ es.map Prod.fst := by
  induction es with
  | nil => simp [List.lookup]
  | cons kv rest ih =>
    obtain ⟨k, v⟩ := kv
    by_cases hk : lang = k
    · subst hk; simp [List.lookup]
    · have : (lang == k) = false := by simp [hk]
      simp [List.lookup, this, ih, hk]

theorem lookupLang_isSome (registry : Registry) (lang : String)
    (h : lang ∈ registryKeys registry) : (lookupLang registry lang).isSome :=
  (lookup_isSome_iff registry.languages lang).mpr h

theorem partitionLangs_all_found (available : List String) (L : List String)
    (h : ∀ l ∈ L, l ∈ available) : partitionLangs available L = (L, []) := by
  induction L with
  | nil => rfl
  | cons lang rest ih =>
    have hmem : lang ∈ available := h lang (List.mem_cons_self lang rest)
    have hrest : ∀ l ∈ rest, l ∈ available := fun l hl => h l (List.mem_cons_of_mem lang hl)
    simp [partitionLangs, ih hrest, hmem]

theorem partitionLangs_eq_filters (available : List String) (L : List String) :
    partitionLangs available L =
      (L.filter (fun l => decide (l ∈ available)),
       L.filter (fun l => decide (l ∉ available))) := by
  induction L with
  | nil => rfl
  | cons lang rest ih =>
    by_cases hmem : lang ∈ available
    · simp [partitionLangs, ih, hmem, List.filter]
    · simp [partitionLangs, ih, hmem, List.filter]

theorem validate_all_found (L : List String) (registry : Registry)
    (h : ∀ l ∈ L, l ∈ registryKeys registry) :
    validate_languages L registry = .ok L := by
  unfold validate_languages
  rw [partitionLangs_all_found (registryKeys registry) L h]
  rfl

theorem nlpModels_eq (L : List String) (registry : Registry)
    (h : ∀ l ∈ L, l ∈ registryKeys registry) :
    nlpModels L registry =
      some (L.map fun lang => { lang_code := lang, model_name := modelOf registry lang }) := by
  induction L with
  | nil => rfl
  | cons lang rest ih =>
    have hhead := lookupLang_isSome registry lang (h lang (List.mem_cons_self lang rest))
    obtain ⟨entry, hentry⟩ := Option.isSome_iff_exists.mp hhead
    have hrest : ∀ l ∈ rest, l ∈ registryKeys registry :=
      fun l hl => h l (List.mem_cons_of_mem lang hl)
    simp [nlpModels, hentry, ih hrest, modelOf]

theorem phoneLangs_eq (L : List String) (registry : Registry)
    (h : ∀ l ∈ L, l ∈ registryKeys registry) :
    phoneLangs L registry =
      some (L.map fun lang => { language := lang, context := ctxOf registry lang }) := by
  induction L with
  | nil => rfl
  | cons lang rest ih =>
    have hhead := lookupLang_isSome registry lang (h lang (List.mem_cons_self lang rest))
    obtain ⟨entry, hentry⟩ := Option.isSome_iff_exists.mp hhead
    have hrest : ∀ l ∈ rest, l ∈ registryKeys registry :=
      fun l hl => h l (List.mem_cons_of_mem lang hl)
    simp [phoneLangs, phoneEntry, hentry, ih hrest, ctxOf]

theorem installBlocks_eq (L : List String) (registry : Registry)
    (h : ∀ l ∈ L, l ∈ registryKeys registry) :
    installBlocks L registry =
      some (L.flatMap fun lang =>
        [installEchoLine (modelOf registry lang) lang,
         installCommandLine (modelUrl (modelOf registry lang) registry.spacy_version),
         ""]) := by
  induction L with
  | nil => rfl
  | cons lang rest ih =>
    have hhead := lookupLang_isSome registry lang (h lang (List.mem_cons_self lang rest))
    obtain ⟨entry, hentry⟩ := Option.isSome_iff_exists.mp hhead
    have hrest : ∀ l ∈ rest, l ∈ registryKeys registry :=
      fun l hl => h l (List.mem_cons_of_mem lang hl)
    simp [installBlocks, hentry, ih hrest, modelOf]

theorem map_lang_code (L : List String) (g : String → String) :
    (L.map fun lang =>
      ({ lang_code := lang, model_name := g lang } : NlpModelEntry)).map
        (fun m => m.lang_code) = L := by
  induction L with
  | nil => rfl
  | cons a as ih => simp [ih]

theorem map_language (L : List String) (g : String → Option YamlVal) :
    (L.map fun lang =>
      ({ language := lang, context := g lang } : RecLangEntry)).map
        (fun e => e.language) = L := by
  induction L with
  | nil => rfl
  | cons a as ih => simp [ih]

/-! Claim theorems. -/

/-- C2: for every registry and every language list whose elements are all
keys of the registry's `languages` mapping, `validate_languages` returns
exactly the input list: same elements, unchanged, in the original order,
including duplicates. -/
theorem validate_returns_input (L : List String) (registry : Registry)
    (h : ∀ l ∈ L, l ∈ registryKeys registry) :
    validate_languages L registry = .ok L :=
  validate_all_found L registry h

/-- Witness for C2 at a concrete duplicated list and the sample registry. -/
theorem validate_returns_input_witness :
    (∀ l ∈ (["en", "de", "en"] : List String), l ∈ registryKeys sampleRegistry) ∧
    validate_languages ["en", "de", "en"] sampleRegistry = .ok ["en", "de", "en"] :=
  ⟨by decide, validate_returns_input ["en", "de", "en"] sampleRegistry (by decide)⟩

/-- C9: for every validated language list the analyzer config is exactly
the record with `supported_languages` the list and
`default_score_threshold` zero; `generate_analyzer_config` takes no other
input (in particular no registry), so the output is identical for any two
registries and the same list. -/
theorem analyzer_config_spec (L : List String) :
    generate_analyzer_config L =
      { supported_languages := L, default_score_threshold := 0 } :=
  rfl

/-- C10: in `generate_recognizers_config`, inclusion of the `context` field
of a phone entry is decided solely by presence of the `phone_context` key in
the language's registry entry, regardless of the associated value: with the
key present with any value `v` (including null and the empty list) the
emitted entry is `{language := lang, context := some v}`, and with the key
absent the entry is exactly the plain `{language := lang}` (whose `context`
is `none`, i.e. the field is omitted). -/
theorem phone_context_key_presence (registry : Registry) (lang : String)
    (entry : LangEntry) (he : lookupLang registry lang = some entry) :
    (∀ v : YamlVal, entry.phone_context = some v →
        phoneEntry registry lang = some { language := lang, context := some v }) ∧
    (entry.phone_context = none →
        phoneEntry registry lang = some { language := lang }) := by
  constructor
  · intro v hv
    simp [phoneEntry, he, hv]
  · intro hv
    simp [phoneEntry, he, hv]

/-- Witness for C10 at the degenerate registry: a null `phone_context`
value and an empty-list value both still produce a `context` field. -/
theorem phone_context_key_presence_witness :
    lookupLang degenerateRegistry ("aa") =
      some { model := "aa_model", phone_context := some .null } ∧
    phoneEntry degenerateRegistry ("aa") =
      some { language := "aa", context := some .null } ∧
    phoneEntry degenerateRegistry ("bb") =
      some { language := "bb", context := some (.strs []) } :=
  ⟨rfl,
   (phone_context_key_presence degenerateRegistry ("aa")
      { model := "aa_model", phone_context := some .null } rfl).1 .null rfl,
   (phone_context_key_presence degenerateRegistry ("bb")
      { model := "bb_model", phone_context := some (.strs []) } rfl).1 (.strs []) rfl⟩

/-- C4: in the recognizers config, the phone entry of each language is
`{language := lang, context := ctxOf registry lang}` where `ctxOf` copies
the registry entry's `phone_context` verbatim: for a language whose entry
defines `phone_context` the `context` field equals that value exactly, and
for one without it the entry is exactly the plain `{language := lang}`
(`context = none`, i.e. no `context` field at all). -/
theorem phone_context_field_spec (L : List String) (registry : Registry)
    (h : ∀ l ∈ L, l ∈ registryKeys registry) :
    phoneLangs L registry =
      some (L.map fun lang => { language := lang, context := ctxOf registry lang }) ∧
    (∀ lang entry, lookupLang registry lang = some entry →
        ctxOf registry lang = entry.phone_context) := by
  refine ⟨phoneLangs_eq L registry h, ?_⟩
  intro lang entry he
  simp [ctxOf, he]

/-- Witness for C4 at the sample registry: `de` defines a phone context and
keeps it verbatim, `en` does not and gets the plain entry. -/
theorem phone_context_field_spec_witness :
    (∀ l ∈ (["en", "de"] : List String), l ∈ registryKeys sampleRegistry) ∧
    phoneLangs ["en", "de"] sampleRegistry =
      some [{ language := "en" },
            { language := "de", context := some (.strs ["telefon", "tel"]) }] ∧
    ctxOf sampleRegistry ("de") = some (.strs ["telefon", "tel"]) ∧
    ctxOf sampleRegistry ("en") = none :=
  ⟨by decide,
   ((phone_context_field_spec ["en", "de"] sampleRegistry (by decide)).1).trans (by rfl),
   ((phone_context_field_spec ["en", "de"] sampleRegistry (by decide)).2 ("de")
      { model := "de_core_news_lg", phone_context := some (.strs ["telefon", "tel"]) }
      rfl).trans (by rfl),
   ((phone_context_field_spec ["en", "de"] sampleRegistry (by decide)).2 ("en")
      { model := "en_core_web_lg" } rfl).trans (by rfl)⟩

/-- C5, counterexample: the claim describes the script as shebang line,
`set -e` line, then immediately the per-language blocks; but the source
initialises its line list as `["#!/bin/sh", "set -e", ""]`, inserting a
blank line before the first block, so already at one language the generated
text differs from the claimed text. -/
theorem install_script_claim_counterexample :
    generate_install_script ["en"] sampleRegistry ≠
      claimedInstallScript ["en"] sampleRegistry := by
  decide

/-- C5, amended: the generated install script text is a shebang line, a
`set -e` line, a blank line, then for each language of the list in order a
block of three lines (an informational echo, an install command whose URL
is `https://github.com/explosion/spacy-models/releases/download/` followed
by `{model}-{version}/{model}-{version}-py3-none-any.whl` with the model
from the registry entry and the registry's `spacy_version`, and a blank
separator line), followed by a final completion echo line. -/
theorem install_script_structure (L : List String) (registry : Registry)
    (h : ∀ l ∈ L, l ∈ registryKeys registry) :
    generate_install_script L registry =
      some (String.intercalate ("\n")
        (["#!/bin/sh", "set -e", ""] ++
          (L.flatMap fun lang =>
            [installEchoLine (modelOf registry lang) lang,
             installCommandLine (modelUrl (modelOf registry lang) registry.spacy_version),
             ""]) ++ [finalEchoLine])) := by
  unfold generate_install_script installLines
  rw [installBlocks_eq L registry h]
  rfl

/-- Witness for C5 (amended) at the spec's worked scenario: two languages,
blocks in order `en` then `de`, URLs built from the models and version. -/
theorem install_script_structure_witness :
    (∀ l ∈ (["en", "de"] : List String), l ∈ registryKeys sampleRegistry) ∧
    generate_install_script ["en", "de"] sampleRegistry =
      some (String.intercalate ("\n")
        (["#!/bin/sh", "set -e", ""] ++
          ((["en", "de"] : List String).flatMap fun lang =>
            [installEchoLine (modelOf sampleRegistry lang) lang,
             installCommandLine
               (modelUrl (modelOf sampleRegistry lang) sampleRegistry.spacy_version),
             ""]) ++ [finalEchoLine])) :=
  ⟨by decide, install_script_structure ["en", "de"] sampleRegistry (by decide)⟩

/-- C6: for every validated language list and registry, the NLP config is
`some` of: engine name `spacy`; one `{lang_code, model_name}` pair per
input language in input order, the model name being the registry entry's
`model`; and the fixed `ner_model_configuration` block (the entity-label
mapping table onto PERSON/LOCATION/ORGANIZATION, multiplier 0.4,
`low_score_entity_names = ["ORG"]`, and the fixed ignore list) — the fixed
parts being literals, identical for every input. -/
theorem nlp_config_spec (L : List String) (registry : Registry)
    (h : ∀ l ∈ L, l ∈ registryKeys registry) :
    generate_nlp_config L registry =
      some { nlp_engine_name := "spacy",
             models := L.map fun lang =>
               { lang_code := lang, model_name := modelOf registry lang },
             ner_model_configuration := {
               model_to_presidio_entity_mapping := [
                 ("PER", "PERSON"), ("PERSON", "PERSON"), ("LOC", "LOCATION"),
                 ("GPE", "LOCATION"), ("ORG", "ORGANIZATION"),
                 ("persName", "PERSON"), ("placeName", "LOCATION"),
                 ("geogName", "LOCATION"), ("orgName", "ORGANIZATION"),
                 ("PS", "PERSON"), ("LC", "LOCATION"), ("OG", "ORGANIZATION"),
                 ("PRS", "PERSON"), ("GPE_LOC", "LOCATION")],
               low_confidence_score_multiplier := 0.4,
               low_score_entity_names := ["ORG"],
               labels_to_ignore := [
                 "O", "CARDINAL", "EVENT", "LANGUAGE", "LAW", "MONEY",
                 "ORDINAL", "PERCENT", "PRODUCT", "QUANTITY", "WORK_OF_ART"] } } := by
  unfold generate_nlp_config
  rw [nlpModels_eq L registry h]
  rfl

/-- Witness for C6 at the spec's worked scenario. -/
theorem nlp_config_spec_witness :
    (∀ l ∈ (["en", "de"] : List String), l ∈ registryKeys sampleRegistry) ∧
    generate_nlp_config ["en", "de"] sampleRegistry =
      some { nlp_engine_name := "spacy",
             models := (["en", "de"] : List String).map fun lang =>
               { lang_code := lang, model_name := modelOf sampleRegistry lang },
             ner_model_configuration := {
               model_to_presidio_entity_mapping := [
                 ("PER", "PERSON"), ("PERSON", "PERSON"), ("LOC", "LOCATION"),
                 ("GPE", "LOCATION"), ("ORG", "ORGANIZATION"),
                 ("persName", "PERSON"), ("placeName", "LOCATION"),
                 ("geogName", "LOCATION"), ("orgName", "ORGANIZATION"),
                 ("PS", "PERSON"), ("LC", "LOCATION"), ("OG", "ORGANIZATION"),
                 ("PRS", "PERSON"), ("GPE_LOC", "LOCATION")],
               low_confidence_score_multiplier := 0.4,
               low_score_entity_names := ["ORG"],
               labels_to_ignore := [
                 "O", "CARDINAL", "EVENT", "LANGUAGE", "LAW", "MONEY",
                 "ORDINAL", "PERCENT", "PRODUCT", "QUANTITY", "WORK_OF_ART"] } } :=
  ⟨by decide, nlp_config_spec ["en", "de"] sampleRegistry (by decide)⟩

/-- C7: for every validated language list, the recognizers config is the
envelope with `supported_languages` the list, `global_regex_flags = 26`,
and exactly six recognizers with the fixed names, each of type
`predefined`; the five non-phone recognizers carry the identical plain
per-language list and differ from one another only by name. -/
theorem recognizers_config_spec (L : List String) (registry : Registry)
    (h : ∀ l ∈ L, l ∈ registryKeys registry) :
    generate_recognizers_config L registry =
      some { supported_languages := L,
             global_regex_flags := 26,
             recognizers := [
               { name := "SpacyRecognizer",
                 supported_languages := L.map fun lang => { language := lang },
                 type := "predefined" },
               { name := "EmailRecognizer",
                 supported_languages := L.map fun lang => { language := lang },
                 type := "predefined" },
               { name := "PhoneRecognizer",
                 supported_languages := L.map fun lang =>
                   { language := lang, context := ctxOf registry lang },
                 type := "predefined" },
               { name := "CreditCardRecognizer",
                 supported_languages := L.map fun lang => { language := lang },
                 type := "predefined" },
               { name := "IbanRecognizer",
                 supported_languages := L.map fun lang => { language := lang },
                 type := "predefined" },
               { name := "IpRecognizer",
                 supported_languages := L.map fun lang => { language := lang },
                 type := "predefined" }] } := by
  unfold generate_recognizers_config
  rw [phoneLangs_eq L registry h]
  rfl

/-- Witness for C7 at the spec's worked scenario. -/
theorem recognizers_config_spec_witness :
    (∀ l ∈ (["en", "de"] : List String), l ∈ registryKeys sampleRegistry) ∧
    generate_recognizers_config ["en", "de"] sampleRegistry =
      some { supported_languages := ["en", "de"],
             global_regex_flags := 26,
             recognizers := [
               { name := "SpacyRecognizer",
                 supported_languages :=
                   (["en", "de"] : List String).map fun lang => { language := lang },
                 type := "predefined" },
               { name := "EmailRecognizer",
                 supported_languages :=
                   (["en", "de"] : List String).map fun lang => { language := lang },
                 type := "predefined" },
               { name := "PhoneRecognizer",
                 supported_languages :=
                   (["en", "de"] : List String).map fun lang =>
                     { language := lang, context := ctxOf sampleRegistry lang },
                 type := "predefined" },
               { name := "CreditCardRecognizer",
                 supported_languages :=
                   (["en", "de"] : List String).map fun lang => { language := lang },
                 type := "predefined" },
               { name := "IbanRecognizer",
                 supported_languages :=
                   (["en", "de"] : List String).map fun lang => { language := lang },
                 type := "predefined" },
               { name := "IpRecognizer",
                 supported_languages :=
                   (["en", "de"] : List String).map fun lang => { language := lang },
                 type := "predefined" }] } :=
  ⟨by decide, recognizers_config_spec ["en", "de"] sampleRegistry (by decide)⟩

/-- C1: whenever the parsed language list contains a code that is not a key
of the registry's `languages` mapping, the run exits with status 1 before
any output is produced (no file written, output directory not created), and
the two stderr lines name all unknown codes (in input order) and list the
sorted set of available registry codes; the listed available codes are
sorted and are exactly the registry's keys. -/
theorem unknown_language_failure (arg path : String) (registry : Registry)
    (l : String) (hl : l ∈ parseLanguages arg)
    (hbad : l ∉ registryKeys registry) :
    run arg path (.parsed registry) =
      { exitCode := 1,
        stderrLines := [
          unknownMsg ((parseLanguages arg).filter fun x =>
            decide (x ∉ registryKeys registry)),
          availableMsg registry],
        stdoutLines := [], outputDirCreated := false, writtenFiles := [] } ∧
    List.Sorted strLe (sortStrings (registryKeys registry).dedup) ∧
    (∀ s, s ∈ sortStrings (registryKeys registry).dedup ↔ s ∈ registryKeys registry) := by
  refine ⟨?_, sortStrings_sorted _,
    fun s => (sortStrings_mem _ s).trans List.mem_dedup⟩
  have hfilter :
      l ∈ (parseLanguages arg).filter fun x => decide (x ∉ registryKeys registry) :=
    List.mem_filter.mpr ⟨hl, by simpa using hbad⟩
  have hne : (parseLanguages arg).isEmpty = false := by
    rcases hcase : parseLanguages arg with _ | ⟨a, rest⟩
    · rw [hcase] at hl; cases hl
    · rfl
  have hinv :
      ((parseLanguages arg).filter fun x => decide (x ∉ registryKeys registry)).isEmpty
        = false := by
    rcases hcase : (parseLanguages arg).filter fun x =>
        decide (x ∉ registryKeys registry) with _ | ⟨a, rest⟩
    · rw [hcase] at hfilter; cases hfilter
    · rfl
  have hval : validate_languages (parseLanguages arg) registry =
      .error ((parseLanguages arg).filter fun x => decide (x ∉ registryKeys registry)) := by
    unfold validate_languages
    rw [partitionLangs_eq_filters]
    simp only [hinv]
    rfl
  unfold run
  simp only [hne, Bool.false_eq_true, if_false, hval]

/-- Witness for C1 at the spec's worked failure scenario
`--languages=en,xx` against the sample registry. -/
theorem unknown_language_failure_witness :
    ("xx" ∈ parseLanguages ("en,xx")) ∧
    ("xx" ∉ registryKeys sampleRegistry) ∧
    (run ("en,xx") ("/build/languages.yaml") (.parsed sampleRegistry) =
      { exitCode := 1,
        stderrLines := [
          unknownMsg ((parseLanguages ("en,xx")).filter fun x =>
            decide (x ∉ registryKeys sampleRegistry)),
          availableMsg sampleRegistry],
        stdoutLines := [], outputDirCreated := false, writtenFiles := [] } ∧
      List.Sorted strLe (sortStrings (registryKeys sampleRegistry).dedup) ∧
      (∀ s, s ∈ sortStrings (registryKeys sampleRegistry).dedup ↔
        s ∈ registryKeys sampleRegistry)) ∧
    unknownMsg ((parseLanguages ("en,xx")).filter fun x =>
      decide (x ∉ registryKeys sampleRegistry)) = "Error: Unknown language(s): xx" ∧
    availableMsg sampleRegistry = "Available: de, en" :=
  ⟨by decide, by decide,
   unknown_language_failure ("en,xx") ("/build/languages.yaml") sampleRegistry
     ("xx") (by decide) (by decide),
   by decide, by decide⟩

/-- C3: the tool writes a diagnostic to stderr and exits with status 1 on
each failure condition — empty language list after trimming and dropping
empty entries, registry path missing (checked before any read), registry
file present but unparsable (the uncaught parser exception: traceback on
stderr, interpreter exit status 1) — and exits with status 0 with no stderr
output on success. -/
theorem exit_codes_spec :
    (∀ arg path src, parseLanguages arg = [] →
        run arg path src =
          { exitCode := 1, stderrLines := ["Error: No languages specified"],
            stdoutLines := [], outputDirCreated := false, writtenFiles := [] }) ∧
    (∀ arg path, parseLanguages arg ≠ [] →
        run arg path .missing =
          { exitCode := 1,
            stderrLines := ["Error: Registry not found: " ++ path],
            stdoutLines := [], outputDirCreated := false, writtenFiles := [] }) ∧
    (∀ arg path message, parseLanguages arg ≠ [] →
        run arg path (.unparsable message) =
          { exitCode := 1, stderrLines := [tracebackHeader, message],
            stdoutLines := [], outputDirCreated := false, writtenFiles := [] }) ∧
    (∀ arg path registry, parseLanguages arg ≠ [] →
        (∀ l ∈ parseLanguages arg, l ∈ registryKeys registry) →
        (run arg path (.parsed registry)).exitCode = 0 ∧
        (run arg path (.parsed registry)).stderrLines = []) := by
  have hne : ∀ arg : String, parseLanguages arg ≠ [] →
      (parseLanguages arg).isEmpty = false := by
    intro arg h
    rcases hcase : parseLanguages arg with _ | ⟨a, rest⟩
    · exact absurd hcase h
    · rfl
  refine ⟨?_, ?_, ?_, ?_⟩
  · intro arg path src h
    unfold run
    simp only [h, List.isEmpty_nil, if_true]
  · intro arg path h
    unfold run
    simp only [hne arg h, Bool.false_eq_true, if_false]
  · intro arg path message h
    unfold run
    simp only [hne arg h, Bool.false_eq_true, if_false]
  · intro arg path registry h hkeys
    have hval := validate_all_found (parseLanguages arg) registry hkeys
    have hnlp := nlpModels_eq (parseLanguages arg) registry hkeys
    have hphone := phoneLangs_eq (parseLanguages arg) registry hkeys
    have hblocks := installBlocks_eq (parseLanguages arg) registry hkeys
    constructor <;>
    · unfold run
      simp only [hne arg h, Bool.false_eq_true, if_false, hval]
      unfold generate_nlp_config generate_recognizers_config
        generate_install_script installLines
      rw [hnlp, hphone, hblocks]
      rfl

/-- Witness for C3: each failure condition at a concrete input, plus a
concrete successful run. -/
theorem exit_codes_spec_witness :
    parseLanguages (" , ") = [] ∧
    parseLanguages ("en") ≠ [] ∧
    parseLanguages ("en,de") ≠ [] ∧
    (∀ l ∈ parseLanguages ("en,de"), l ∈ registryKeys sampleRegistry) ∧
    run (" , ") ("/build/languages.yaml") (.parsed sampleRegistry) =
      { exitCode := 1, stderrLines := ["Error: No languages specified"],
        stdoutLines := [], outputDirCreated := false, writtenFiles := [] } ∧
    run ("en") ("/build/languages.yaml") .missing =
      { exitCode := 1,
        stderrLines := ["Error: Registry not found: " ++ "/build/languages.yaml"],
        stdoutLines := [], outputDirCreated := false, writtenFiles := [] } ∧
    run ("en") ("/build/languages.yaml") (.unparsable ("while parsing a block mapping")) =
      { exitCode := 1,
        stderrLines := [tracebackHeader, "while parsing a block mapping"],
        stdoutLines := [], outputDirCreated := false, writtenFiles := [] } ∧
    (run ("en,de") ("/build/languages.yaml") (.parsed sampleRegistry)).exitCode = 0 ∧
    (run ("en,de") ("/build/languages.yaml") (.parsed sampleRegistry)).stderrLines = [] :=
  ⟨by decide, by decide, by decide, by decide,
   exit_codes_spec.1 (" , ") ("/build/languages.yaml") (.parsed sampleRegistry) (by decide),
   exit_codes_spec.2.1 ("en") ("/build/languages.yaml") (by decide),
   exit_codes_spec.2.2.1 ("en") ("/build/languages.yaml")
     ("while parsing a block mapping") (by decide),
   (exit_codes_spec.2.2.2 ("en,de") ("/build/languages.yaml") sampleRegistry
     (by decide) (by decide)).1,
   (exit_codes_spec.2.2.2 ("en,de") ("/build/languages.yaml") sampleRegistry
     (by decide) (by decide)).2⟩

/-- C8: the language order of the validated list is reflected identically —
no re-sorting, no de-duplication — through validation, the
`supported_languages` of the analyzer and recognizers configs, the NLP
models list, every recognizer's per-language view, and the order of the
install-script blocks. -/
theorem order_preservation (L : List String) (registry : Registry)
    (h : ∀ l ∈ L, l ∈ registryKeys registry) :
    validate_languages L registry = .ok L ∧
    (generate_analyzer_config L).supported_languages = L ∧
    (∃ c, generate_nlp_config L registry = some c ∧
      c.models.map (fun m => m.lang_code) = L) ∧
    (∃ rc, generate_recognizers_config L registry = some rc ∧
      rc.supported_languages = L ∧
      ∀ re ∈ rc.recognizers,
        re.supported_languages.map (fun e => e.language) = L) ∧
    (∃ blocks, installBlocks L registry = some blocks ∧
      blocks = L.flatMap fun lang =>
        [installEchoLine (modelOf registry lang) lang,
         installCommandLine (modelUrl (modelOf registry lang) registry.spacy_version),
         ""]) := by
  refine ⟨validate_all_found L registry h, rfl, ?_, ?_, ?_⟩
  · refine ⟨{ nlp_engine_name := "spacy",
              models := L.map fun lang =>
                { lang_code := lang, model_name := modelOf registry lang },
              ner_model_configuration := nerModelConfigurationFixed }, ?_, ?_⟩
    · unfold generate_nlp_config
      rw [nlpModels_eq L registry h]
      rfl
    · exact map_lang_code L (fun lang => modelOf registry lang)
  · refine ⟨{ supported_languages := L,
              global_regex_flags := 26,
              recognizers := [
                { name := "SpacyRecognizer",
                  supported_languages := L.map fun lang => { language := lang },
                  type := "predefined" },
                { name := "EmailRecognizer",
                  supported_languages := L.map fun lang => { language := lang },
                  type := "predefined" },
                { name := "PhoneRecognizer",
                  supported_languages := L.map fun lang =>
                    { language := lang, context := ctxOf registry lang },
                  type := "predefined" },
                { name := "CreditCardRecognizer",
                  supported_languages := L.map fun lang => { language := lang },
                  type := "predefined" },
                { name := "IbanRecognizer",
                  supported_languages := L.map fun lang => { language := lang },
                  type := "predefined" },
                { name := "IpRecognizer",
                  supported_languages := L.map fun lang => { language := lang },
                  type := "predefined" }] }, ?_, rfl, ?_⟩
    · unfold generate_recognizers_config
      rw [phoneLangs_eq L registry h]
      rfl
    · intro re hre
      simp only [List.mem_cons, List.not_mem_nil, or_false] at hre
      rcases hre with rfl | rfl | rfl | rfl | rfl | rfl
      · exact map_language L (fun _ => none)
      · exact map_language L (fun _ => none)
      · exact map_language L (fun lang => ctxOf registry lang)
      · exact map_language L (fun _ => none)
      · exact map_language L (fun _ => none)
      · exact map_language L (fun _ => none)
  · exact ⟨_, installBlocks_eq L registry h, rfl⟩

/-- Witness for C8 at a duplicated language list over the sample registry. -/
theorem order_preservation_witness :
    (∀ l ∈ (["en", "de", "en"] : List String), l ∈ registryKeys sampleRegistry) ∧
    (validate_languages ["en", "de", "en"] sampleRegistry = .ok ["en", "de", "en"] ∧
     (generate_analyzer_config ["en", "de", "en"]).supported_languages = ["en", "de", "en"] ∧
     (∃ c, generate_nlp_config ["en", "de", "en"] sampleRegistry = some c ∧
       c.models.map (fun m => m.lang_code) = ["en", "de", "en"]) ∧
     (∃ rc, generate_recognizers_config ["en", "de", "en"] sampleRegistry = some rc ∧
       rc.supported_languages = ["en", "de", "en"] ∧
       ∀ re ∈ rc.recognizers,
         re.supported_languages.map (fun e => e.language) = ["en", "de", "en"]) ∧
     (∃ blocks, installBlocks ["en", "de", "en"] sampleRegistry = some blocks ∧
       blocks = (["en", "de", "en"] : List String).flatMap fun lang =>
         [installEchoLine (modelOf sampleRegistry lang) lang,
          installCommandLine
            (modelUrl (modelOf sampleRegistry lang) sampleRegistry.spacy_version),
          ""])) :=
  ⟨by decide, order_preservation ["en", "de", "en"] sampleRegistry (by decide)⟩

end GenerateConfigs
